import Mathlib

/-!
Verification of the PayD backend observability pipeline.

This file gives a shallow embedding, in Lean 4, of the core observability
services of the PayD backend:

* `TracingService`  (src/backend/src/services/logging/transports.ts, tracing part)
* `MetricsCollector` (src/backend/src/services/monitoring/index.ts, metrics part)
* `AlertingService`  (src/backend/src/services/monitoring/index.ts, alerting part)
* `ElasticsearchTransport` (src/backend/src/services/logging/transports.ts)
* the monitoring route handlers (trace-detail and alert queries)

Modelling conventions:

* The services are stateful TypeScript classes mutated by synchronous method
  calls; they are embedded as pure functions from an explicit state value (and
  the method arguments) to a new state value.
* `Date.now()` and the randomly generated identifiers (`crypto.randomBytes`,
  `Math.random`) are passed in as explicit arguments at each call, so a run of
  the program is a fold of these functions over an input sequence.
* JavaScript strings are Lean `String`s; where the JS code inspects a string
  character-by-character (`split`, `.length`) we operate on the underlying
  character list, and `.length` is modelled as the number of UTF-16 code units
  (`utf16Length`), which is what JS `String.prototype.length` counts.
* Numeric timestamps are `Nat` (milliseconds since the epoch); arithmetic that
  can go negative in JS (`now - lastTime`, span durations) is done in `Int`.
  Real-number arithmetic stands in for IEEE-754 doubles.
* Fallible lookups return `Option`; JS `undefined` from out-of-bounds array
  indexing is `Option.none`; JS truthiness tests on numbers/strings are
  modelled explicitly (`0`, `""` and `null`/`undefined` are falsy).
-/

namespace PayD

/-- A scalar span-tag / metadata value (`string | number | boolean` in the
source); numeric payloads are modelled as integers (no claim inspects them). -/
inductive TagValue
  | str (s : String)
  | num (n : Int)
  | bool (b : Bool)
deriving DecidableEq

/-- A JS object with scalar values, in insertion order
(`Record<string, string | number | boolean>`). -/
abbrev Tags := List (String × TagValue)

/-- Assign a single key: overwrite in place if the key exists, else append
(JS object property-set semantics). -/
def setKey : Tags → String × TagValue → Tags
  | [], kv => [kv]
  | (k, v) :: rest, kv => if k = kv.1 then (k, kv.2) :: rest else (k, v) :: setKey rest kv

/-- JS `Object.assign(target, source)`: set each key of `source` on `target`, in
source order. -/
def assignTags (target source : Tags) : Tags :=
  source.foldl setKey target

/-- Span status (`'ok' | 'error' | 'in_progress'`). -/
inductive SpanStatus
  | ok
  | error
  | in_progress
deriving DecidableEq

/-- One entry of a span's log list; the `data` payload
(`Record<string, unknown>`) is opaque to every claim and kept as an
uninterpreted optional string. -/
structure SpanLog where
  timestamp : Nat
  message : String
  data : Option String
deriving DecidableEq

/-- The `Span` interface of the tracing service. -/
structure Span where
  spanId : String
  traceId : String
  parentSpanId : Option String
  operationName : String
  serviceName : String
  startTime : Nat
  endTime : Option Nat
  duration : Option Int
  status : SpanStatus
  tags : Tags
  logs : List SpanLog
deriving DecidableEq

/-- The `TraceContext` interface. -/
structure TraceContext where
  traceId : String
  spanId : String
  parentSpanId : Option String
deriving DecidableEq

/-- The configuration the tracing service reads from `monitoringConfig`
(the config module is environment-driven and not part of the sources;
its fields are passed in as parameters). -/
structure TracingConfig where
  enabled : Bool
  sampleRate : ℚ
  serviceName : String

namespace SpanMap

/-- Lookup in the `Map<string, Span>` of active spans (modelled as an
insertion-ordered list keyed by the `spanId` field). -/
def get : List Span → String → Option Span
  | [], _ => none
  | s :: rest, id => if s.spanId = id then some s else get rest id

/-- JS `Map.set`: replace the entry with the same key in place, else append. -/
def set : List Span → Span → List Span
  | [], sp => [sp]
  | s :: rest, sp => if s.spanId = sp.spanId then sp :: rest else s :: set rest sp

/-- JS `Map.delete`. -/
def delete : List Span → String → List Span
  | [], _ => []
  | s :: rest, id => if s.spanId = id then rest else s :: delete rest id

/-- In-place mutation of the span stored under `id` (the JS code retrieves the
object from the map and mutates it). -/
def update : List Span → String → (Span → Span) → List Span
  | [], _, _ => []
  | s :: rest, id, f => if s.spanId = id then f s :: rest else s :: update rest id f

end SpanMap

namespace TracingService

/-- Source constant `private readonly maxCompletedSpans = 5000`. -/
def maxCompletedSpans : Nat := 5000

/-- The mutable state of the `TracingService` singleton. -/
structure State where
  activeSpans : List Span
  completedSpans : List Span
deriving DecidableEq

/-- The freshly constructed service state. -/
def State.init : State := ⟨[], []⟩

/-- Method `shouldSample`: `draw` is the outcome of `Math.random()` (a real in
`[0, 1)`, passed in as an oracle). -/
def shouldSample (cfg : TracingConfig) (draw : ℚ) : Bool :=
  if !cfg.enabled then false
  else if cfg.sampleRate ≥ 1 then true
  else if draw < cfg.sampleRate then true else false

/-- Method `startTrace`: `traceId`/`spanId` are the two freshly generated random ids,
`draw` the sampling draw, `now` the clock reading. -/
def startTrace (cfg : TracingConfig) (st : State) (traceId spanId : String) (draw : ℚ)
    (operationName : String) (tags : Option Tags) (now : Nat) : State × TraceContext :=
  if shouldSample cfg draw then
    let span : Span :=
      { spanId, traceId, parentSpanId := none, operationName,
        serviceName := cfg.serviceName, startTime := now, endTime := none,
        duration := none, status := .in_progress, tags := tags.getD [], logs := [] }
    ({ st with activeSpans := SpanMap.set st.activeSpans span },
     { traceId, spanId, parentSpanId := none })
  else
    (st, { traceId, spanId, parentSpanId := none })

/-- Method `startSpan`: continues an existing trace with a new child span; the guard
is only the global `enabled` flag (the root's sampling draw plays no part). -/
def startSpan (cfg : TracingConfig) (st : State) (spanId traceId parentSpanId : String)
    (operationName : String) (tags : Option Tags) (now : Nat) : State × TraceContext :=
  if cfg.enabled then
    let span : Span :=
      { spanId, traceId, parentSpanId := some parentSpanId, operationName,
        serviceName := cfg.serviceName, startTime := now, endTime := none,
        duration := none, status := .in_progress, tags := tags.getD [], logs := [] }
    ({ st with activeSpans := SpanMap.set st.activeSpans span },
     { traceId, spanId, parentSpanId := some parentSpanId })
  else
    (st, { traceId, spanId, parentSpanId := some parentSpanId })

/-- The closed form of a span as stamped by `endSpan`. -/
def closeSpan (span : Span) (status : SpanStatus) (tags : Option Tags) (now : Nat) : Span :=
  { span with
    endTime := some now,
    duration := some ((now : Int) - (span.startTime : Int)),
    status,
    tags := match tags with
      | some t => assignTags span.tags t
      | none => span.tags }

/-- Method `endSpan`: no-op when the id is not active; otherwise stamps the span,
moves it from the active map to the completed store, and evicts the completed
store down to its newest `maxCompletedSpans / 2` entries when it exceeds
`maxCompletedSpans` (`slice(-maxCompletedSpans / 2)`). -/
def endSpan (st : State) (spanId : String) (status : SpanStatus) (tags : Option Tags)
    (now : Nat) : State :=
  match SpanMap.get st.activeSpans spanId with
  | none => st
  | some span =>
    let span := closeSpan span status tags now
    let completed := st.completedSpans ++ [span]
    let completed :=
      if completed.length > maxCompletedSpans then
        completed.drop (completed.length - maxCompletedSpans / 2)
      else completed
    { activeSpans := SpanMap.delete st.activeSpans spanId, completedSpans := completed }

/-- Method `addSpanLog`: appends a log entry to an active span; no-op otherwise. -/
def addSpanLog (st : State) (spanId message : String) (data : Option String)
    (now : Nat) : State :=
  { st with
    activeSpans := SpanMap.update st.activeSpans spanId fun sp =>
      { sp with logs := sp.logs ++ [{ timestamp := now, message, data }] } }

/-- Method `addSpanTags`: merges tags into an active span; no-op otherwise. -/
def addSpanTags (st : State) (spanId : String) (tags : Tags) : State :=
  { st with
    activeSpans := SpanMap.update st.activeSpans spanId fun sp =>
      { sp with tags := assignTags sp.tags tags } }

/-- Method `getTrace`: the active spans with that trace id (in map order) followed by
the completed ones, sorted ascending by `startTime`. -/
def getTrace (st : State) (traceId : String) : List Span :=
  ((st.activeSpans.filter fun s => s.traceId = traceId) ++
    (st.completedSpans.filter fun s => s.traceId = traceId)).insertionSort
    fun a b => a.startTime ≤ b.startTime

end TracingService

/-- JS `header.split('-')` on the character list of a JS string: splits at every
separator, keeping empty fields. -/
def splitChar (sep : Char) : List Char → List Char → List (List Char)
  | [], acc => [acc.reverse]
  | c :: cs, acc => if c = sep then acc.reverse :: splitChar sep cs [] else splitChar sep cs (c :: acc)

/-- JS `String.prototype.split` with a single-character separator. -/
def jsSplit (sep : Char) (s : String) : List String :=
  (splitChar sep s.data []).map String.mk

/-- JS `String.prototype.length`: the number of UTF-16 code units. -/
def utf16Length (s : String) : Nat :=
  s.data.foldl (fun n c => n + (if c.toNat ≥ 65536 then 2 else 1)) 0

namespace TracingService

/-- Method `parseTraceparent`: splits on `-`, requires exactly 4 fields, a 32-unit
second field and a 16-unit third field (the JS falsiness tests `!traceId` /
`!parentSpanId` are subsumed by the length tests, the empty string having
length 0). `freshSpanId` is the locally generated span id. No per-character
(hex) validation is performed by the source. -/
def parseTraceparent (freshSpanId : String) (header : String) : Option TraceContext :=
  let parts := jsSplit '-' header
  if parts.length ≠ 4 then none
  else
    let traceId := parts.getD 1 ""
    let parentSpanId := parts.getD 2 ""
    if utf16Length traceId ≠ 32 then none
    else if utf16Length parentSpanId ≠ 16 then none
    else some { traceId, spanId := freshSpanId, parentSpanId := some parentSpanId }

/-- All span ids stored by the service, active first. -/
def State.ids (st : State) : List String :=
  st.activeSpans.map Span.spanId ++ st.completedSpans.map Span.spanId

/-- The reachable states of the tracing service: every interleaving of its
five mutating entry points, from the freshly constructed state, with clocks,
draws and payloads arbitrary. The generated span ids
(`crypto.randomBytes(8)`, 64 random bits) are modelled as never colliding
with a stored id — the freshness premises on the two start steps. -/
inductive Reachable (cfg : TracingConfig) : State → Prop
  | init : Reachable cfg State.init
  | startTrace {st} (h : Reachable cfg st) (traceId spanId : String) (draw : ℚ)
      (operationName : String) (tags : Option Tags) (now : Nat)
      (fresh : spanId ∉ st.ids) :
      Reachable cfg (startTrace cfg st traceId spanId draw operationName tags now).1
  | startSpan {st} (h : Reachable cfg st) (spanId traceId parentSpanId : String)
      (operationName : String) (tags : Option Tags) (now : Nat)
      (fresh : spanId ∉ st.ids) :
      Reachable cfg (startSpan cfg st spanId traceId parentSpanId operationName tags now).1
  | endSpan {st} (h : Reachable cfg st) (spanId : String) (status : SpanStatus)
      (tags : Option Tags) (now : Nat) :
      Reachable cfg (endSpan st spanId status tags now)
  | addSpanLog {st} (h : Reachable cfg st) (spanId message : String)
      (data : Option String) (now : Nat) :
      Reachable cfg (addSpanLog st spanId message data now)
  | addSpanTags {st} (h : Reachable cfg st) (spanId : String) (tags : Tags) :
      Reachable cfg (addSpanTags st spanId tags)

end TracingService

/-- The `RequestMetric` interface (durations and timestamps are integral
milliseconds). -/
structure RequestMetric where
  method : String
  path : String
  statusCode : Nat
  durationMs : Nat
  timestamp : Nat
deriving DecidableEq

namespace MetricsCollector

/-- Source constant `private readonly maxMetricsRetained = 10000`. -/
def maxMetricsRetained : Nat := 10000

/-- Method `recordRequest`: push, then if the buffer exceeds the cap truncate to the
newest `maxMetricsRetained / 2` entries (`slice(-maxMetricsRetained / 2)`). -/
def recordRequest (requestMetrics : List RequestMetric) (metric : RequestMetric) :
    List RequestMetric :=
  let l := requestMetrics ++ [metric]
  if l.length > maxMetricsRetained then
    l.drop (l.length - maxMetricsRetained / 2)
  else l

/-- JS `Math.ceil((p / 100) * n)` for natural `p`, `n`: the ceiling of `p·n/100`,
computed as `(p·n + 99) / 100` in `Nat` (shown below to agree with the
rational ceiling). -/
def ceilPct (p n : Nat) : Nat := (p * n + 99) / 100

/-- Method `percentile(sorted, p)`: `0` for an empty input, otherwise the element at
index `max(0, ceil((p/100)·n) - 1)`; an out-of-range index (JS `undefined`)
is `none`. -/
def percentile (sorted : List Nat) (p : Nat) : Option Nat :=
  if sorted.length = 0 then some 0
  else sorted.get? (max 0 ((ceilPct p sorted.length : Int) - 1)).toNat

/-- JS `durations.sort((a, b) => a - b)`: ascending sort, as performed by
`getSummary` before calling `percentile`. -/
def sortAsc (durations : List Nat) : List Nat :=
  durations.insertionSort (· ≤ ·)

end MetricsCollector

/-- Alert types (`'error_rate' | 'response_time' | 'service_down' | 'custom'`). -/
inductive AlertType
  | error_rate
  | response_time
  | service_down
  | custom
deriving DecidableEq

/-- Alert severities (`'info' | 'warning' | 'critical'`). -/
inductive AlertSeverity
  | info
  | warning
  | critical
deriving DecidableEq

/-- The string form of an alert type, as interpolated into the cooldown key. -/
def AlertType.toKey : AlertType → String
  | .error_rate => "error_rate"
  | .response_time => "response_time"
  | .service_down => "service_down"
  | .custom => "custom"

/-- The string form of a severity, as interpolated into the cooldown key. -/
def AlertSeverity.toKey : AlertSeverity → String
  | .info => "info"
  | .warning => "warning"
  | .critical => "critical"

/-- The `Alert` interface. -/
structure Alert where
  id : String
  type : AlertType
  severity : AlertSeverity
  title : String
  message : String
  timestamp : Nat
  metadata : Tags
  acknowledged : Bool
deriving DecidableEq

/-- The parameter object of `createAlert`. -/
structure AlertParams where
  type : AlertType
  severity : AlertSeverity
  title : String
  message : String
  metadata : Option Tags
deriving DecidableEq

namespace AlertingService

/-- Source constant `private readonly maxAlerts = 1000`. -/
def maxAlerts : Nat := 1000

/-- The mutable state of the `AlertingService` singleton: the alert store and
the cooldown map from `"type:severity"` keys to last-emission times. -/
structure State where
  alerts : List Alert
  lastAlertTime : List (String × Nat)
deriving DecidableEq

/-- The freshly constructed service state. -/
def State.init : State := ⟨[], []⟩

/-- Lookup in the cooldown `Map<string, number>`. -/
def lookupTime : List (String × Nat) → String → Option Nat
  | [], _ => none
  | (k, t) :: rest, key => if k = key then some t else lookupTime rest key

/-- JS `Map.set` on the cooldown map: replace in place or append. -/
def setTime : List (String × Nat) → String → Nat → List (String × Nat)
  | [], key, t => [(key, t)]
  | (k, v) :: rest, key, t =>
    if k = key then (key, t) :: rest else (k, v) :: setTime rest key t

/-- The cooldown key: the alert type and the severity joined by a colon. -/
def alertKey (params : AlertParams) : String :=
  params.type.toKey ++ ":" ++ params.severity.toKey

/-- The alert object built by a non-suppressed `createAlert` call
(`randSuffix` is the `Math.random().toString(36).substring(2, 8)` part). -/
def mkAlert (params : AlertParams) (now : Nat) (randSuffix : String) : Alert :=
  { id := "alert-" ++ toString now ++ "-" ++ randSuffix,
    type := params.type, severity := params.severity,
    title := params.title, message := params.message,
    timestamp := now, metadata := params.metadata.getD [],
    acknowledged := false }

/-- Method `createAlert`: returns `null` (and changes nothing) when an alert with the
same `(type, severity)` key fired within `cooldownMs`; otherwise stores the
alert, records the emission time, and trims the store to its newest
`maxAlerts / 2` entries if it exceeds `maxAlerts`. The JS guard is
`if (lastTime && now - lastTime < cooldownMs)`, so a recorded time of `0` is
falsy and does not suppress. `randSuffix` is the random id suffix. -/
def createAlert (cooldownMs : Nat) (st : State) (params : AlertParams) (now : Nat)
    (randSuffix : String) : Option Alert × State :=
  let key := alertKey params
  let suppressed : Bool :=
    match lookupTime st.lastAlertTime key with
    | some lastTime => decide (lastTime ≠ 0 ∧ (now : Int) - (lastTime : Int) < (cooldownMs : Int))
    | none => false
  if suppressed then (none, st)
  else
    let alert := mkAlert params now randSuffix
    let alerts := st.alerts ++ [alert]
    let alerts :=
      if alerts.length > maxAlerts then alerts.drop (alerts.length - maxAlerts / 2)
      else alerts
    (some alert, { alerts, lastAlertTime := setTime st.lastAlertTime key now })

/-- The optional filter of `getAlerts`; `limit` is the (possibly negative)
integer produced by the route's `parseInt`. -/
structure AlertFilter where
  severity : Option AlertSeverity
  type : Option AlertType
  acknowledged : Option Bool
  limit : Option Int
deriving DecidableEq

/-- JS `x || d` for an optional number `x`: `undefined` and `0` are falsy. -/
def jsOrInt (x : Option Int) (d : Int) : Int :=
  match x with
  | none => d
  | some n => if n = 0 then d else n

/-- JS `arr.slice(0, e)` for an integer `e` (negative `e` counts from the
end). -/
def jsSliceTo (l : List Alert) (e : Int) : List Alert :=
  if e < 0 then l.take ((l.length : Int) + e).toNat else l.take e.toNat

/-- The three optional field filters of `getAlerts`, in source order. -/
def applyFilters (alerts : List Alert) (filter : Option AlertFilter) : List Alert :=
  let result := alerts
  let result :=
    match filter.bind AlertFilter.severity with
    | some sev => result.filter fun a => a.severity = sev
    | none => result
  let result :=
    match filter.bind AlertFilter.type with
    | some ty => result.filter fun a => a.type = ty
    | none => result
  match filter.bind AlertFilter.acknowledged with
  | some ack => result.filter fun a => a.acknowledged = ack
  | none => result

/-- Method `getAlerts`: filter, sort newest-first (`b.timestamp - a.timestamp`
comparator), then `slice(0, filter?.limit || 50)`. -/
def getAlerts (st : State) (filter : Option AlertFilter) : List Alert :=
  let result := applyFilters st.alerts filter
  let sorted := result.insertionSort fun a b => b.timestamp ≤ a.timestamp
  jsSliceTo sorted (jsOrInt (filter.bind AlertFilter.limit) 50)

end AlertingService

/-- The outcome of one `fetch` to the export target, supplied as an oracle:
the request succeeded (2xx), returned a non-2xx status, or failed at the
network level (which in JS rejects the promise). -/
inductive ExportOutcome
  | success
  | httpError (status : Nat)
  | networkError (message : String)
deriving DecidableEq

namespace ElasticsearchTransport

/-- A buffered log document; its contents are opaque to every claim. -/
abbrev LogDoc := String

/-- Source constant `private readonly bufferLimit = 100`. -/
def bufferLimit : Nat := 100

/-- The transport's mutable state: the pending buffer plus the local
diagnostic log (`console.error` output). -/
structure State where
  buffer : List LogDoc
  diagnostics : List String
deriving DecidableEq

/-- The freshly constructed transport state. -/
def State.init : State := ⟨[], []⟩

/-- Method `flush`: empties the buffer *before* the network call; on a non-2xx
response or a network error the batch is dropped and only a diagnostic line
is recorded — nothing is re-buffered. -/
def flush (st : State) (outcome : ExportOutcome) : State :=
  if st.buffer.length = 0 then st
  else
    { buffer := [],
      diagnostics := st.diagnostics ++
        match outcome with
        | .success => []
        | .httpError status =>
          ["Elasticsearch bulk insert failed: " ++ toString status]
        | .networkError message =>
          ["Failed to ship logs to Elasticsearch: " ++ message] }

/-- Method `log`: buffers the document and flushes when the buffer reaches
`bufferLimit`; `outcome` is the result of that (possible) flush. -/
def logDoc (st : State) (doc : LogDoc) (outcome : ExportOutcome) : State :=
  let st := { st with buffer := st.buffer ++ [doc] }
  if st.buffer.length ≥ bufferLimit then flush st outcome else st

end ElasticsearchTransport

namespace TracingService

/-- Method `shipSpan`: a single `fetch` wrapped in `try { … } catch {}` — the
whole body's outcome is discarded, so the caller always observes a normal
return (`Except.ok`), never an exception. -/
def shipSpan (_span : Span) (outcome : ExportOutcome) : Except String Unit :=
  let attempt : Except String Unit :=
    match outcome with
    | .networkError message => .error message
    | _ => .ok ()
  match attempt with
  | .error _ => .ok ()
  | .ok _ => .ok ()

end TracingService

namespace MonitoringRoutes

/-- The JSON result of `GET /api/monitoring/traces/:traceId`. -/
inductive TraceDetailResult
  | notFound
  | ok (traceId : String) (spans : List Span) (totalSpans : Nat) (duration : Int)
deriving DecidableEq

/-- JS `x || d` for an optional number `x` (`null` and `0` are falsy), as in
`spans[spans.length - 1].endTime || Date.now()`. -/
def jsOrNat (x : Option Nat) (d : Nat) : Nat :=
  match x with
  | none => d
  | some n => if n = 0 then d else n

/-- The `GET /traces/:traceId` handler: 404 when `getTrace` is empty,
otherwise the spans with their count and
`(spans[spans.length - 1].endTime || Date.now()) - spans[0].startTime`. -/
def getTraceDetail (st : TracingService.State) (traceId : String) (now : Nat) :
    TraceDetailResult :=
  let spans := TracingService.getTrace st traceId
  if h : spans.length = 0 then .notFound
  else
    .ok traceId spans spans.length
      ((jsOrNat (spans.getLast (by intro hnil; simp [hnil] at h)).endTime now : Int) -
        ((spans.head (by intro hnil; simp [hnil] at h)).startTime : Int))

end MonitoringRoutes

/-- A concrete four-call run of the tracer (used to exercise the trace-detail
route): with tracing enabled at rate 1, a root span on trace "t" runs over
[0, 100] while its child span runs over [10, 20] — the child starts later but
ends first. -/
def exampleTraceRun : TracingService.State :=
  TracingService.endSpan
    (TracingService.endSpan
      (TracingService.startSpan ⟨true, 1, "payd"⟩
        (TracingService.startTrace ⟨true, 1, "payd"⟩ TracingService.State.init
          "t" "root" 0 "op" none 0).1
        "c" "t" "root" "child" none 10).1
      "c" .ok none 20)
    "root" .ok none 100

/-- A hexadecimal digit, in either case (used to state what the claimed parser
behaviour would require; the source performs no such check). -/
def isHexChar (c : Char) : Bool :=
  ('0' ≤ c && c ≤ '9') || ('a' ≤ c && c ≤ 'f') || ('A' ≤ c && c ≤ 'F')

/-! Helper lemmas about the embedded map operations. -/

theorem SpanMap.get_eq_none_iff (m : List Span) (id : String) :
    SpanMap.get m id = none ↔ ∀ s ∈ m, s.spanId ≠ id := by
  induction m with
  | nil => simp [SpanMap.get]
  | cons s rest ih =>
    by_cases h : s.spanId = id <;> simp [SpanMap.get, h, ih]

theorem SpanMap.set_of_fresh (m : List Span) (sp : Span)
    (h : ∀ s ∈ m, s.spanId ≠ sp.spanId) : SpanMap.set m sp = m ++ [sp] := by
  induction m with
  | nil => rfl
  | cons s rest ih =>
    have hs : s.spanId ≠ sp.spanId := h s (by simp)
    simp only [SpanMap.set, if_neg hs, List.cons_append, List.cons.injEq, true_and]
    exact ih fun t ht => h t (by simp [ht])

theorem SpanMap.get_set_self (m : List Span) (sp : Span) :
    SpanMap.get (SpanMap.set m sp) sp.spanId = some sp := by
  induction m with
  | nil => simp [SpanMap.set, SpanMap.get]
  | cons s rest ih =>
    by_cases h : s.spanId = sp.spanId <;> simp [SpanMap.set, SpanMap.get, h, ih]

theorem SpanMap.get_some_decomp (m : List Span) (id : String) (sp : Span)
    (h : SpanMap.get m id = some sp) :
    sp.spanId = id ∧ ∃ pre post, m = pre ++ sp :: post ∧ (∀ s ∈ pre, s.spanId ≠ id) ∧
      SpanMap.delete m id = pre ++ post := by
  induction m with
  | nil => simp [SpanMap.get] at h
  | cons s rest ih =>
    by_cases hs : s.spanId = id
    · simp only [SpanMap.get, if_pos hs, Option.some.injEq] at h
      subst h
      exact ⟨hs, [], rest, rfl, by simp, by simp [SpanMap.delete, hs]⟩
    · simp only [SpanMap.get, if_neg hs] at h
      obtain ⟨hid, pre, post, hm, hpre, hdel⟩ := ih h
      refine ⟨hid, s :: pre, post, by simp [hm], ?_, ?_⟩
      · intro t ht
        rcases List.mem_cons.mp ht with h1 | h2
        · exact h1 ▸ hs
        · exact hpre t h2
      · simp [SpanMap.delete, hs, hdel]

theorem SpanMap.update_map_spanId (m : List Span) (id : String) (f : Span → Span)
    (hf : ∀ sp, (f sp).spanId = sp.spanId) :
    (SpanMap.update m id f).map Span.spanId = m.map Span.spanId := by
  induction m with
  | nil => rfl
  | cons s rest ih =>
    by_cases h : s.spanId = id <;> simp [SpanMap.update, h, ih, hf]

theorem SpanMap.update_of_none (m : List Span) (id : String) (f : Span → Span)
    (h : SpanMap.get m id = none) : SpanMap.update m id f = m := by
  induction m with
  | nil => rfl
  | cons s rest ih =>
    by_cases hs : s.spanId = id
    · simp [SpanMap.get, hs] at h
    · simp only [SpanMap.get, if_neg hs] at h
      simp [SpanMap.update, hs, ih h]

theorem AlertingService.lookupTime_setTime_self (l : List (String × Nat))
    (key : String) (t : Nat) :
    AlertingService.lookupTime (AlertingService.setTime l key t) key = some t := by
  induction l with
  | nil => simp [AlertingService.setTime, AlertingService.lookupTime]
  | cons kv rest ih =>
    by_cases h : kv.1 = key <;>
      simp [AlertingService.setTime, AlertingService.lookupTime, h, ih]

/-- C7: calling `endSpan`, `addSpanLog` or `addSpanTags` with a span id that is
not in the active set is a no-op: each function is total (the source methods
return early rather than raise) and leaves the whole tracer state — active set
and completed store — unchanged. -/
theorem inactive_span_operations_are_noops :
    ∀ (st : TracingService.State) (spanId : String) (status : SpanStatus)
      (tags : Option Tags) (now : Nat) (message : String) (data : Option String)
      (moreTags : Tags),
      SpanMap.get st.activeSpans spanId = none →
      TracingService.endSpan st spanId status tags now = st ∧
      TracingService.addSpanLog st spanId message data now = st ∧
      TracingService.addSpanTags st spanId moreTags = st := by
  intro st spanId status tags now message data moreTags h
  refine ⟨?_, ?_, ?_⟩
  · simp [TracingService.endSpan, h]
  · simp [TracingService.addSpanLog, SpanMap.update_of_none _ _ _ h]
  · simp [TracingService.addSpanTags, SpanMap.update_of_none _ _ _ h]

/-- Witness for C7: the empty tracer state and an id that is not active. -/
theorem inactive_span_operations_are_noops_witness :
    SpanMap.get TracingService.State.init.activeSpans "missing" = none ∧
    (TracingService.endSpan TracingService.State.init "missing" .ok none 7 =
        TracingService.State.init ∧
      TracingService.addSpanLog TracingService.State.init "missing" "m" none 7 =
        TracingService.State.init ∧
      TracingService.addSpanTags TracingService.State.init "missing" [] =
        TracingService.State.init) :=
  ⟨by decide,
    inactive_span_operations_are_noops TracingService.State.init "missing" .ok none 7 "m"
      none [] (by decide)⟩

/-- C8: a failing bulk flush never propagates and the flushed batch is gone for
good: the buffer is emptied before the network call, so after `flush` the
buffer is `[]` whatever the outcome (success, non-2xx, network error), the
flushed documents are never re-buffered or retried (a subsequent `log` starts
from the empty buffer), and `shipSpan` returns normally on every outcome
(its `try`/`catch` swallows the failure). -/
theorem export_failure_is_isolated :
    ∀ (st : ElasticsearchTransport.State) (outcome later : ExportOutcome)
      (doc : ElasticsearchTransport.LogDoc) (sp : Span),
      (ElasticsearchTransport.flush st outcome).buffer = [] ∧
      (ElasticsearchTransport.flush st outcome).buffer =
        (ElasticsearchTransport.flush st .success).buffer ∧
      (ElasticsearchTransport.logDoc (ElasticsearchTransport.flush st outcome)
          doc later).buffer = [doc] ∧
      TracingService.shipSpan sp outcome = .ok () := by
  intro st outcome later doc sp
  have hbuf : ∀ o : ExportOutcome, (ElasticsearchTransport.flush st o).buffer = [] := by
    intro o
    by_cases h : st.buffer.length = 0
    · simp [ElasticsearchTransport.flush, h, List.length_eq_zero.mp h]
    · simp [ElasticsearchTransport.flush, h]
  refine ⟨hbuf outcome, (hbuf outcome).trans (hbuf .success).symm, ?_, ?_⟩
  · simp [ElasticsearchTransport.logDoc, hbuf outcome, ElasticsearchTransport.bufferLimit]
  · cases outcome <;> rfl

/-- C2 counterexample: a header whose traceId and parentId fields have the
right lengths but contain no hexadecimal character at all is accepted —
`parseTraceparent` checks only the field count and field lengths, so it does
not return null on this non-hex input as the claim requires. -/
theorem parseTraceparent_accepts_non_hex :
    (∀ c ∈ ("zzzzzzzzzzzzzzzzzzzzzzzzzzzzzzzz" : String).data, isHexChar c = false) ∧
    TracingService.parseTraceparent "0123456789abcdef"
        "00-zzzzzzzzzzzzzzzzzzzzzzzzzzzzzzzz-zzzzzzzzzzzzzzzz-01" =
      some { traceId := "zzzzzzzzzzzzzzzzzzzzzzzzzzzzzzzz", spanId := "0123456789abcdef",
             parentSpanId := some "zzzzzzzzzzzzzzzz" } := by
  constructor
  · decide
  · decide

/-- C2 (amended): `parseTraceparent` returns null exactly when the header does
not consist of 4 dash-separated fields whose second field has length 32 and
whose third field has length 16 — the characters themselves are not validated;
on every accepted header the returned context carries the header's second
field as `traceId` and its third field as `parentSpanId`. -/
theorem parseTraceparent_length_rule :
    ∀ (freshSpanId header : String),
      ((jsSplit '-' header).length = 4 ∧
          utf16Length ((jsSplit '-' header).getD 1 "") = 32 ∧
          utf16Length ((jsSplit '-' header).getD 2 "") = 16 →
        TracingService.parseTraceparent freshSpanId header =
          some { traceId := (jsSplit '-' header).getD 1 "",
                 spanId := freshSpanId,
                 parentSpanId := some ((jsSplit '-' header).getD 2 "") }) ∧
      (¬((jsSplit '-' header).length = 4 ∧
          utf16Length ((jsSplit '-' header).getD 1 "") = 32 ∧
          utf16Length ((jsSplit '-' header).getD 2 "") = 16) →
        TracingService.parseTraceparent freshSpanId header = none) := by
  intro freshSpanId header
  unfold TracingService.parseTraceparent
  by_cases h4 : (jsSplit '-' header).length = 4
  · have hb1 : 1 < (jsSplit '-' header).length := by omega
    have hb2 : 2 < (jsSplit '-' header).length := by omega
    by_cases h32 : utf16Length ((jsSplit '-' header).getD 1 "") = 32
    · by_cases h16 : utf16Length ((jsSplit '-' header).getD 2 "") = 16
      · rw [List.getD_eq_getElem _ _ hb1] at h32
        rw [List.getD_eq_getElem _ _ hb2] at h16
        constructor
        · intro _
          simp [h4, List.getD_eq_getElem _ _ hb1, List.getD_eq_getElem _ _ hb2, h32, h16]
        · intro hbad
          exact absurd ⟨h4, by
            rw [List.getD_eq_getElem _ _ hb1, List.getD_eq_getElem _ _ hb2]
            exact ⟨h32, h16⟩⟩ hbad
      · rw [List.getD_eq_getElem _ _ hb1] at h32
        rw [List.getD_eq_getElem _ _ hb2] at h16
        constructor
        · rintro ⟨-, -, h16'⟩
          rw [List.getD_eq_getElem _ _ hb2] at h16'
          exact absurd h16' h16
        · intro _
          simp [h4, List.getD_eq_getElem _ _ hb1, List.getD_eq_getElem _ _ hb2, h32, h16]
    · rw [List.getD_eq_getElem _ _ hb1] at h32
      constructor
      · rintro ⟨-, h32', -⟩
        rw [List.getD_eq_getElem _ _ hb1] at h32'
        exact absurd h32' h32
      · intro _
        simp [h4, List.getD_eq_getElem _ _ hb1, h32]
  · constructor
    · rintro ⟨h4', -, -⟩
      exact absurd h4' h4
    · intro _
      simp [h4]

/-- Witness for C2 (amended): a well-formed header is parsed into its fields. -/
theorem parseTraceparent_length_rule_witness :
    ((jsSplit '-' "00-aaaaaaaaaaaaaaaaaaaaaaaaaaaaaaaa-bbbbbbbbbbbbbbbb-01").length = 4 ∧
        utf16Length ((jsSplit '-'
          "00-aaaaaaaaaaaaaaaaaaaaaaaaaaaaaaaa-bbbbbbbbbbbbbbbb-01").getD 1 "") = 32 ∧
        utf16Length ((jsSplit '-'
          "00-aaaaaaaaaaaaaaaaaaaaaaaaaaaaaaaa-bbbbbbbbbbbbbbbb-01").getD 2 "") = 16) ∧
    TracingService.parseTraceparent "0123456789abcdef"
        "00-aaaaaaaaaaaaaaaaaaaaaaaaaaaaaaaa-bbbbbbbbbbbbbbbb-01" =
      some { traceId := (jsSplit '-'
               "00-aaaaaaaaaaaaaaaaaaaaaaaaaaaaaaaa-bbbbbbbbbbbbbbbb-01").getD 1 "",
             spanId := "0123456789abcdef",
             parentSpanId := some ((jsSplit '-'
               "00-aaaaaaaaaaaaaaaaaaaaaaaaaaaaaaaa-bbbbbbbbbbbbbbbb-01").getD 2 "") } :=
  ⟨by decide,
    (parseTraceparent_length_rule "0123456789abcdef"
        "00-aaaaaaaaaaaaaaaaaaaaaaaaaaaaaaaa-bbbbbbbbbbbbbbbb-01").1 (by decide)⟩

/-- C1 counterexample: with tracing enabled and sample rate 0.0, the sampling
draw at `startTrace` does not record (first conjunct) — yet a subsequent
`startSpan` continuing the same trace does add a span to the active set, and
`getTrace` of that trace id is not the empty sequence (second conjunct), so
spans are not bound to the root's sampling outcome. -/
theorem unsampled_trace_still_gains_child_spans :
    TracingService.shouldSample ⟨true, 0, "payd-backend"⟩ 0 = false ∧
    TracingService.getTrace
        (TracingService.startSpan ⟨true, 0, "payd-backend"⟩
          (TracingService.startTrace ⟨true, 0, "payd-backend"⟩ TracingService.State.init
            "t1" "s1" 0 "op" none 0).1
          "s2" "t1" "s1" "child" none 5).1 "t1" ≠ [] := by
  constructor
  · decide
  · decide

/-- C1 (amended): the sampling draw binds only the root span. When the draw at
`startTrace` does not record, `startTrace` itself records nothing (the state
is unchanged, so the trace has no spans from the root); but `startSpan`
records its child span whenever tracing is globally enabled, regardless of the
root's draw — an unsampled-root trace can still gain child spans. At sample
rate `p ≥ 1` the draw always records, so with tracing enabled every span
(root and child alike) is recorded. -/
theorem sampling_binds_only_the_root_span :
    ∀ (cfg : TracingConfig) (st : TracingService.State)
      (traceId spanId childSpanId parentSpanId : String) (draw : ℚ)
      (operationName childOperationName : String) (tags : Option Tags) (now : Nat),
      cfg.enabled = true →
      (TracingService.shouldSample cfg draw = false →
        (TracingService.startTrace cfg st traceId spanId draw operationName tags now).1 = st) ∧
      SpanMap.get
          (TracingService.startSpan cfg st childSpanId traceId parentSpanId
            childOperationName tags now).1.activeSpans childSpanId =
        some { spanId := childSpanId, traceId, parentSpanId := some parentSpanId,
               operationName := childOperationName,
               serviceName := cfg.serviceName, startTime := now, endTime := none,
               duration := none, status := .in_progress, tags := tags.getD [], logs := [] } ∧
      (1 ≤ cfg.sampleRate →
        TracingService.shouldSample cfg draw = true ∧
        SpanMap.get
            (TracingService.startTrace cfg st traceId spanId draw
              operationName tags now).1.activeSpans spanId =
          some { spanId, traceId, parentSpanId := none, operationName,
                 serviceName := cfg.serviceName, startTime := now, endTime := none,
                 duration := none, status := .in_progress, tags := tags.getD [], logs := [] }) := by
  intro cfg st traceId spanId childSpanId parentSpanId draw operationName
    childOperationName tags now henabled
  refine ⟨?_, ?_, ?_⟩
  · intro hs
    simp [TracingService.startTrace, hs]
  · simpa [TracingService.startSpan, henabled] using
      SpanMap.get_set_self st.activeSpans _
  · intro hrate
    have hs : TracingService.shouldSample cfg draw = true := by
      simp [TracingService.shouldSample, henabled, hrate]
    refine ⟨hs, ?_⟩
    simpa [TracingService.startTrace, hs] using
      SpanMap.get_set_self st.activeSpans _

/-- Witness for C1 (amended), at rate 1 (where the draw records) and a
concrete child span. -/
theorem sampling_binds_only_the_root_span_witness :
    (⟨true, 1, "payd-backend"⟩ : TracingConfig).enabled = true ∧
    ((TracingService.shouldSample ⟨true, 1, "payd-backend"⟩ 0 = false →
        (TracingService.startTrace ⟨true, 1, "payd-backend"⟩ TracingService.State.init
          "t1" "s1" 0 "op" none 3).1 = TracingService.State.init) ∧
      SpanMap.get
          (TracingService.startSpan ⟨true, 1, "payd-backend"⟩ TracingService.State.init
            "s2" "t1" "s1" "child" none 3).1.activeSpans "s2" =
        some { spanId := "s2", traceId := "t1", parentSpanId := some "s1",
               operationName := "child", serviceName := "payd-backend", startTime := 3,
               endTime := none, duration := none, status := .in_progress,
               tags := [], logs := [] } ∧
      (1 ≤ (⟨true, 1, "payd-backend"⟩ : TracingConfig).sampleRate →
        TracingService.shouldSample ⟨true, 1, "payd-backend"⟩ 0 = true ∧
        SpanMap.get
            (TracingService.startTrace ⟨true, 1, "payd-backend"⟩ TracingService.State.init
              "t1" "s1" 0 "op" none 3).1.activeSpans "s1" =
          some { spanId := "s1", traceId := "t1", parentSpanId := none,
                 operationName := "op", serviceName := "payd-backend", startTime := 3,
                 endTime := none, duration := none, status := .in_progress,
                 tags := [], logs := [] })) :=
  ⟨rfl,
    sampling_binds_only_the_root_span ⟨true, 1, "payd-backend"⟩ TracingService.State.init
      "t1" "s1" "s2" "s1" 0 "op" "child" none 3 rfl⟩

/-! Order facts for the two JS sort comparators. -/

instance : IsTotal Span (fun a b : Span => a.startTime ≤ b.startTime) :=
  ⟨fun a b => le_total a.startTime b.startTime⟩

instance : IsTrans Span (fun a b : Span => a.startTime ≤ b.startTime) :=
  ⟨fun _ _ _ hab hbc => le_trans hab hbc⟩

instance : IsRefl Span (fun a b : Span => a.startTime ≤ b.startTime) :=
  ⟨fun _ => le_refl _⟩

instance : IsTotal Alert (fun a b : Alert => b.timestamp ≤ a.timestamp) :=
  ⟨fun a b => le_total b.timestamp a.timestamp⟩

instance : IsTrans Alert (fun a b : Alert => b.timestamp ≤ a.timestamp) :=
  ⟨fun _ _ _ hab hbc => le_trans hbc hab⟩

/-- C10: when the filter is absent, or its `limit` field is absent or `0`
(all falsy for `filter?.limit || 50`), `getAlerts` returns the first 50 of the
newest-first sort of the alerts matching the remaining filters — hence at most
50 alerts, in newest-first order, however many are stored. -/
theorem getAlerts_defaults_to_fifty :
    ∀ (st : AlertingService.State) (filter : Option AlertingService.AlertFilter),
      filter.bind AlertingService.AlertFilter.limit = none ∨
        filter.bind AlertingService.AlertFilter.limit = some 0 →
      AlertingService.getAlerts st filter =
        ((AlertingService.applyFilters st.alerts filter).insertionSort
          (fun a b => b.timestamp ≤ a.timestamp)).take 50 ∧
      (AlertingService.getAlerts st filter).length ≤ 50 ∧
      List.Sorted (fun a b : Alert => b.timestamp ≤ a.timestamp)
        (AlertingService.getAlerts st filter) := by
  intro st filter h
  have hlim : AlertingService.jsOrInt
      (filter.bind AlertingService.AlertFilter.limit) 50 = 50 := by
    rcases h with h | h <;> simp [AlertingService.jsOrInt, h]
  have heq : AlertingService.getAlerts st filter =
      ((AlertingService.applyFilters st.alerts filter).insertionSort
        (fun a b => b.timestamp ≤ a.timestamp)).take 50 := by
    simp [AlertingService.getAlerts, hlim, AlertingService.jsSliceTo]
  refine ⟨heq, ?_, ?_⟩
  · rw [heq]
    simp [List.length_take]
  · rw [heq]
    exact List.Pairwise.sublist (List.take_sublist _ _)
      (List.sorted_insertionSort _ _)

/-- Witness for C10: an absent filter on the empty alert store. -/
theorem getAlerts_defaults_to_fifty_witness :
    ((none : Option AlertingService.AlertFilter).bind
        AlertingService.AlertFilter.limit = none ∨
      (none : Option AlertingService.AlertFilter).bind
        AlertingService.AlertFilter.limit = some 0) ∧
    AlertingService.getAlerts AlertingService.State.init none =
      ((AlertingService.applyFilters AlertingService.State.init.alerts none).insertionSort
        (fun a b => b.timestamp ≤ a.timestamp)).take 50 ∧
    (AlertingService.getAlerts AlertingService.State.init none).length ≤ 50 ∧
    List.Sorted (fun a b : Alert => b.timestamp ≤ a.timestamp)
      (AlertingService.getAlerts AlertingService.State.init none) :=
  ⟨Or.inl rfl, getAlerts_defaults_to_fifty AlertingService.State.init none (Or.inl rfl)⟩

/-- C5: halving eviction bounds both rolling buffers. For `recordRequest`:
if the buffer was within its cap it stays within the cap, and on the append
that exceeds the cap it is truncated to exactly the newest
`maxMetricsRetained / 2` entries. The same holds for the completed-span store
updated by `endSpan` with its cap `maxCompletedSpans`. -/
theorem halving_eviction_bounds_buffers :
    (∀ (l : List RequestMetric) (m : RequestMetric),
      (l.length ≤ MetricsCollector.maxMetricsRetained →
        (MetricsCollector.recordRequest l m).length ≤
          MetricsCollector.maxMetricsRetained) ∧
      (l.length = MetricsCollector.maxMetricsRetained →
        MetricsCollector.recordRequest l m =
          (l ++ [m]).drop (MetricsCollector.maxMetricsRetained + 1 -
            MetricsCollector.maxMetricsRetained / 2) ∧
        (MetricsCollector.recordRequest l m).length =
          MetricsCollector.maxMetricsRetained / 2)) ∧
    (∀ (st : TracingService.State) (spanId : String) (status : SpanStatus)
        (tags : Option Tags) (now : Nat),
      (st.completedSpans.length ≤ TracingService.maxCompletedSpans →
        (TracingService.endSpan st spanId status tags now).completedSpans.length ≤
          TracingService.maxCompletedSpans) ∧
      (∀ sp, SpanMap.get st.activeSpans spanId = some sp →
        st.completedSpans.length = TracingService.maxCompletedSpans →
        (TracingService.endSpan st spanId status tags now).completedSpans =
          (st.completedSpans ++ [TracingService.closeSpan sp status tags now]).drop
            (TracingService.maxCompletedSpans + 1 -
              TracingService.maxCompletedSpans / 2) ∧
        (TracingService.endSpan st spanId status tags now).completedSpans.length =
          TracingService.maxCompletedSpans / 2)) := by
  constructor
  · intro l m
    constructor
    · intro hle
      simp only [MetricsCollector.recordRequest, MetricsCollector.maxMetricsRetained] at *
      split_ifs with h
      · simp only [List.length_drop, List.length_append, List.length_singleton] at *
        omega
      · simp only [List.length_append, List.length_singleton] at *
        omega
    · intro heq
      simp only [MetricsCollector.recordRequest, MetricsCollector.maxMetricsRetained] at *
      have hlen : (l ++ [m]).length = 10001 := by simp [heq]
      rw [if_pos (by omega)]
      refine ⟨by rw [hlen], ?_⟩
      simp only [List.length_drop, hlen]
  · intro st spanId status tags now
    cases hget : SpanMap.get st.activeSpans spanId with
    | none =>
      refine ⟨?_, ?_⟩
      · intro hle
        simp [TracingService.endSpan, hget, hle]
      · intro sp hsp
        simp at hsp
    | some sp0 =>
      refine ⟨?_, ?_⟩
      · intro hle
        simp only [TracingService.endSpan, hget, TracingService.maxCompletedSpans] at *
        split_ifs with h
        · simp only [List.length_drop, List.length_append, List.length_singleton] at *
          omega
        · simp only [List.length_append, List.length_singleton] at *
          omega
      · intro sp hsp heq
        obtain rfl : sp0 = sp := Option.some.inj hsp
        simp only [TracingService.endSpan, hget, TracingService.maxCompletedSpans] at *
        have hlen : (st.completedSpans ++ [TracingService.closeSpan sp0 status tags now]).length
            = 5001 := by simp [heq]
        rw [if_pos (by omega)]
        refine ⟨by rw [hlen], ?_⟩
        simp only [List.length_drop, hlen]

/-- Witness for C5: a full request buffer (10000 entries) overflows to 5000,
and a full completed-span store (5000 entries) overflows to 2500 when an
active span is ended. -/
theorem halving_eviction_bounds_buffers_witness :
    (List.replicate 10000 (⟨"GET", "/x", 200, 5, 0⟩ : RequestMetric)).length =
      MetricsCollector.maxMetricsRetained ∧
    (MetricsCollector.recordRequest
        (List.replicate 10000 (⟨"GET", "/x", 200, 5, 0⟩ : RequestMetric))
        ⟨"GET", "/x", 200, 5, 0⟩).length = MetricsCollector.maxMetricsRetained / 2 ∧
    SpanMap.get
        (⟨[⟨"s1", "t1", none, "op", "svc", 0, none, none, .in_progress, [], []⟩],
          List.replicate 5000
            (⟨"c0", "t0", none, "op", "svc", 0, some 1, some 1, .ok, [], []⟩ : Span)⟩ :
          TracingService.State).activeSpans "s1" =
      some ⟨"s1", "t1", none, "op", "svc", 0, none, none, .in_progress, [], []⟩ ∧
    (TracingService.endSpan
        ⟨[⟨"s1", "t1", none, "op", "svc", 0, none, none, .in_progress, [], []⟩],
          List.replicate 5000
            (⟨"c0", "t0", none, "op", "svc", 0, some 1, some 1, .ok, [], []⟩ : Span)⟩
        "s1" .ok none 9).completedSpans.length = TracingService.maxCompletedSpans / 2 :=
  ⟨by simp only [List.length_replicate]; rfl,
    ((halving_eviction_bounds_buffers.1 _ ⟨"GET", "/x", 200, 5, 0⟩).2
      (by simp only [List.length_replicate]; rfl)).2,
    by decide,
    ((halving_eviction_bounds_buffers.2 _ "s1" .ok none 9).2
      ⟨"s1", "t1", none, "op", "svc", 0, none, none, .in_progress, [], []⟩
      (by decide) (by simp only [List.length_replicate]; rfl)).2⟩

/-! Helper lemmas about the two outcomes of a single createAlert call. -/

theorem AlertingService.createAlert_suppressed (cooldownMs : Nat)
    (st : AlertingService.State) (params : AlertParams) (now : Nat) (randSuffix : String)
    (t : Nat) (hl : AlertingService.lookupTime st.lastAlertTime
      (AlertingService.alertKey params) = some t)
    (ht : t ≠ 0) (hw : (now : Int) - (t : Int) < (cooldownMs : Int)) :
    AlertingService.createAlert cooldownMs st params now randSuffix = (none, st) := by
  simp [AlertingService.createAlert, hl, ht, hw]

theorem AlertingService.createAlert_fires (cooldownMs : Nat)
    (st : AlertingService.State) (params : AlertParams) (now : Nat) (randSuffix : String)
    (hok : ∀ t, AlertingService.lookupTime st.lastAlertTime
        (AlertingService.alertKey params) = some t →
      t = 0 ∨ (cooldownMs : Int) ≤ (now : Int) - (t : Int))
    (hcap : st.alerts.length + 1 ≤ AlertingService.maxAlerts) :
    AlertingService.createAlert cooldownMs st params now randSuffix =
      (some (AlertingService.mkAlert params now randSuffix),
       ⟨st.alerts ++ [AlertingService.mkAlert params now randSuffix],
        AlertingService.setTime st.lastAlertTime (AlertingService.alertKey params) now⟩) := by
  have htrim : ¬ (st.alerts ++ [AlertingService.mkAlert params now randSuffix]).length >
      AlertingService.maxAlerts := by
    simp only [List.length_append, List.length_singleton]
    omega
  cases hl : AlertingService.lookupTime st.lastAlertTime (AlertingService.alertKey params) with
  | none =>
    simp [AlertingService.createAlert, hl, htrim]
    intro hgt
    exact absurd hgt (by omega)
  | some t =>
    rcases hok t hl with h0 | helapsed
    · subst h0
      simp [AlertingService.createAlert, hl, htrim]
      intro hgt
      exact absurd hgt (by omega)
    · have hnl : ¬ ((now : Int) - (t : Int) < (cooldownMs : Int)) := not_lt.mpr helapsed
      simp [AlertingService.createAlert, hl, hnl, htrim]
      intro hgt
      exact absurd hgt (by omega)

/-- C3: `createAlert` enforces a cooldown keyed by `(type, severity)` only.
The three calls below carry three independent parameter records `p₁ p₂ p₃`
that are required to agree in nothing but type and severity (title, message
and metadata are unconstrained). If a first call with `p₁` succeeds at time
`n₁ > 0` (with room in the store), a second call with `p₂` within
`cooldownMs` returns null and leaves the whole state (alert store and
cooldown map) unchanged — so the two calls store exactly one alert — while a
third call with `p₃` at `n₃`, the cooldown having elapsed, stores a second
alert and records `n₃` as the new emission time under the shared key. -/
theorem createAlert_cooldown_discipline :
    ∀ (cooldownMs : Nat) (st : AlertingService.State) (p₁ p₂ p₃ : AlertParams)
      (n₁ n₂ n₃ : Nat) (r₁ r₂ r₃ : String),
      p₂.type = p₁.type → p₂.severity = p₁.severity →
      p₃.type = p₁.type → p₃.severity = p₁.severity →
      0 < n₁ →
      st.alerts.length + 2 ≤ AlertingService.maxAlerts →
      ((AlertingService.createAlert cooldownMs st p₁ n₁ r₁).1).isSome = true →
      (n₂ : Int) - (n₁ : Int) < (cooldownMs : Int) →
      (cooldownMs : Int) ≤ (n₃ : Int) - (n₁ : Int) →
      AlertingService.createAlert cooldownMs
          (AlertingService.createAlert cooldownMs st p₁ n₁ r₁).2 p₂ n₂ r₂ =
        (none, (AlertingService.createAlert cooldownMs st p₁ n₁ r₁).2) ∧
      ((AlertingService.createAlert cooldownMs st p₁ n₁ r₁).2).alerts.length =
        st.alerts.length + 1 ∧
      ((AlertingService.createAlert cooldownMs
          (AlertingService.createAlert cooldownMs st p₁ n₁ r₁).2
          p₃ n₃ r₃).1).isSome = true ∧
      ((AlertingService.createAlert cooldownMs
          (AlertingService.createAlert cooldownMs st p₁ n₁ r₁).2
          p₃ n₃ r₃).2).alerts.length = st.alerts.length + 2 ∧
      AlertingService.lookupTime
          ((AlertingService.createAlert cooldownMs
            (AlertingService.createAlert cooldownMs st p₁ n₁ r₁).2
            p₃ n₃ r₃).2).lastAlertTime (AlertingService.alertKey p₃) =
        some n₃ := by
  intro cooldownMs st p₁ p₂ p₃ n₁ n₂ n₃ r₁ r₂ r₃ hty₂ hsev₂ hty₃ hsev₃ hn₁ hcap hsucc h₂ h₃
  have hkey₂ : AlertingService.alertKey p₂ = AlertingService.alertKey p₁ := by
    rw [AlertingService.alertKey, AlertingService.alertKey, hty₂, hsev₂]
  have hkey₃ : AlertingService.alertKey p₃ = AlertingService.alertKey p₁ := by
    rw [AlertingService.alertKey, AlertingService.alertKey, hty₃, hsev₃]
  have hfire1 : AlertingService.createAlert cooldownMs st p₁ n₁ r₁ =
      (some (AlertingService.mkAlert p₁ n₁ r₁),
       ⟨st.alerts ++ [AlertingService.mkAlert p₁ n₁ r₁],
        AlertingService.setTime st.lastAlertTime (AlertingService.alertKey p₁) n₁⟩) := by
    apply AlertingService.createAlert_fires
    · intro t hl
      by_cases ht : t = 0
      · exact Or.inl ht
      · by_cases hw : (n₁ : Int) - (t : Int) < (cooldownMs : Int)
        · exfalso
          rw [AlertingService.createAlert_suppressed cooldownMs st p₁ n₁ r₁ t hl ht hw]
            at hsucc
          simp at hsucc
        · exact Or.inr (not_lt.mp hw)
    · omega
  have hlook1 : AlertingService.lookupTime
      ((AlertingService.createAlert cooldownMs st p₁ n₁ r₁).2).lastAlertTime
      (AlertingService.alertKey p₁) = some n₁ := by
    rw [hfire1]
    exact AlertingService.lookupTime_setTime_self _ _ _
  have hlook1₂ : AlertingService.lookupTime
      ((AlertingService.createAlert cooldownMs st p₁ n₁ r₁).2).lastAlertTime
      (AlertingService.alertKey p₂) = some n₁ := by
    rw [hkey₂]
    exact hlook1
  have hsupp2 : AlertingService.createAlert cooldownMs
      (AlertingService.createAlert cooldownMs st p₁ n₁ r₁).2 p₂ n₂ r₂ =
      (none, (AlertingService.createAlert cooldownMs st p₁ n₁ r₁).2) :=
    AlertingService.createAlert_suppressed _ _ _ _ _ n₁ hlook1₂ (by omega) h₂
  have hlen1 : ((AlertingService.createAlert cooldownMs st p₁ n₁ r₁).2).alerts.length =
      st.alerts.length + 1 := by
    rw [hfire1]
    simp
  have hfire3 : AlertingService.createAlert cooldownMs
      (AlertingService.createAlert cooldownMs st p₁ n₁ r₁).2 p₃ n₃ r₃ =
      (some (AlertingService.mkAlert p₃ n₃ r₃),
       ⟨((AlertingService.createAlert cooldownMs st p₁ n₁ r₁).2).alerts ++
          [AlertingService.mkAlert p₃ n₃ r₃],
        AlertingService.setTime
          ((AlertingService.createAlert cooldownMs st p₁ n₁ r₁).2).lastAlertTime
          (AlertingService.alertKey p₃) n₃⟩) := by
    apply AlertingService.createAlert_fires
    · intro t hl
      rw [hkey₃, hlook1] at hl
      obtain rfl := Option.some.inj hl
      exact Or.inr h₃
    · omega
  refine ⟨hsupp2, hlen1, ?_, ?_, ?_⟩
  · rw [hfire3]
    rfl
  · rw [hfire3]
    simp [hlen1]
  · rw [hfire3]
    exact AlertingService.lookupTime_setTime_self _ _ _

/-- Witness for C3: concrete calls at times 5, 6 and 70005 with a one-minute
cooldown on the empty alerting state; the three calls share only the
`(custom, info)` key and differ in title, message and metadata. -/
theorem createAlert_cooldown_discipline_witness :
    ((⟨.custom, .info, "second title", "second message", none⟩ : AlertParams).type =
        (⟨.custom, .info, "first title", "first message", none⟩ : AlertParams).type ∧
      (⟨.custom, .info, "second title", "second message", none⟩ : AlertParams).severity =
        (⟨.custom, .info, "first title", "first message", none⟩ : AlertParams).severity ∧
      (⟨.custom, .info, "third title", "third message",
          some [("k", .num 3)]⟩ : AlertParams).type =
        (⟨.custom, .info, "first title", "first message", none⟩ : AlertParams).type ∧
      (⟨.custom, .info, "third title", "third message",
          some [("k", .num 3)]⟩ : AlertParams).severity =
        (⟨.custom, .info, "first title", "first message", none⟩ : AlertParams).severity) ∧
    0 < 5 ∧ AlertingService.State.init.alerts.length + 2 ≤ AlertingService.maxAlerts ∧
    ((AlertingService.createAlert 60000 AlertingService.State.init
        ⟨.custom, .info, "first title", "first message", none⟩ 5 "aaa").1).isSome = true ∧
    ((6 : Int) - (5 : Int) < (60000 : Int)) ∧
    ((60000 : Int) ≤ (70005 : Int) - (5 : Int)) ∧
    AlertingService.createAlert 60000
        (AlertingService.createAlert 60000 AlertingService.State.init
          ⟨.custom, .info, "first title", "first message", none⟩ 5 "aaa").2
        ⟨.custom, .info, "second title", "second message", none⟩ 6 "bbb" =
      (none, (AlertingService.createAlert 60000 AlertingService.State.init
        ⟨.custom, .info, "first title", "first message", none⟩ 5 "aaa").2) ∧
    ((AlertingService.createAlert 60000
        (AlertingService.createAlert 60000 AlertingService.State.init
          ⟨.custom, .info, "first title", "first message", none⟩ 5 "aaa").2
        ⟨.custom, .info, "third title", "third message",
          some [("k", .num 3)]⟩ 70005 "ccc").1).isSome = true :=
  have h := createAlert_cooldown_discipline 60000 AlertingService.State.init
    ⟨.custom, .info, "first title", "first message", none⟩
    ⟨.custom, .info, "second title", "second message", none⟩
    ⟨.custom, .info, "third title", "third message", some [("k", .num 3)]⟩
    5 6 70005 "aaa" "bbb" "ccc"
    rfl rfl rfl rfl (by decide) (by decide) (by decide) (by decide) (by decide)
  ⟨⟨rfl, rfl, rfl, rfl⟩, by decide, by decide, by decide, by decide, by decide,
    h.1, h.2.2.1⟩

/-! Helper lemmas for the nearest-rank percentile. -/

theorem ceil_div_hundred_eq (a z : Nat) (h1 : a ≤ 100 * z) (h2 : 100 * z < a + 100) :
    ⌈(a : ℚ) / 100⌉ = (z : ℤ) := by
  rw [Int.ceil_eq_iff]
  constructor
  · rw [lt_div_iff₀ (by norm_num : (0 : ℚ) < 100)]
    have hc : ((100 * z : Nat) : ℚ) < ((a : Nat) : ℚ) + 100 := by
      exact_mod_cast h2
    push_cast at hc ⊢
    linarith
  · rw [div_le_iff₀ (by norm_num : (0 : ℚ) < 100)]
    have hc : ((a : Nat) : ℚ) ≤ ((100 * z : Nat) : ℚ) := by
      exact_mod_cast h1
    push_cast at hc ⊢
    linarith

theorem MetricsCollector.ceilPct_toInt (p n : Nat) :
    ((MetricsCollector.ceilPct p n : Nat) : ℤ) = ⌈((p : ℚ) / 100) * (n : ℚ)⌉ := by
  have key : ((p : ℚ) / 100) * (n : ℚ) = ((p * n : Nat) : ℚ) / 100 := by
    push_cast
    ring
  rw [MetricsCollector.ceilPct, key]
  have hdm := Nat.div_add_mod (p * n + 99) 100
  have hmod : (p * n + 99) % 100 < 100 := Nat.mod_lt _ (by norm_num)
  exact (ceil_div_hundred_eq (p * n) ((p * n + 99) / 100) (by omega) (by omega)).symm

theorem MetricsCollector.ceilPct_le_of_le (p n : Nat) (hp : p ≤ 100) :
    MetricsCollector.ceilPct p n ≤ n := by
  have h1 : MetricsCollector.ceilPct p n ≤ MetricsCollector.ceilPct 100 n :=
    Nat.div_le_div_right (Nat.add_le_add_right (Nat.mul_le_mul_right n hp) 99)
  have h2 : MetricsCollector.ceilPct 100 n = n := by
    rw [MetricsCollector.ceilPct, Nat.add_comm, Nat.add_mul_div_left _ _ (by norm_num : 0 < 100)]
    norm_num
  omega

theorem MetricsCollector.ceilPct_mono (n : Nat) {p q : Nat} (h : p ≤ q) :
    MetricsCollector.ceilPct p n ≤ MetricsCollector.ceilPct q n :=
  Nat.div_le_div_right (Nat.add_le_add_right (Nat.mul_le_mul_right n h) 99)

theorem MetricsCollector.percentile_eq_get? (s : List Nat) (p : Nat)
    (hs : s.length ≠ 0) :
    MetricsCollector.percentile s p = s.get? (MetricsCollector.ceilPct p s.length - 1) := by
  rw [MetricsCollector.percentile, if_neg hs]
  congr 1
  omega

/-- C4: the percentile computation is nearest-rank. On the ascending sort of a
non-empty duration list it selects the element at index
`max(0, ceil((p/100)·n) − 1)`, which is always one of the supplied values; it
is monotone non-decreasing in `p` (for `p ≤ q ≤ 100`), and the empty input
yields 0. -/
theorem percentile_nearest_rank :
    ∀ (durations : List Nat) (p q : Nat),
      p ≤ q → q ≤ 100 →
      MetricsCollector.percentile (MetricsCollector.sortAsc []) p = some 0 ∧
      (durations ≠ [] →
        ∃ i : Fin (MetricsCollector.sortAsc durations).length,
          (i : Nat) = (max 0 (⌈((p : ℚ) / 100) * (durations.length : ℚ)⌉ - 1)).toNat ∧
          MetricsCollector.percentile (MetricsCollector.sortAsc durations) p =
            some ((MetricsCollector.sortAsc durations).get i) ∧
          (MetricsCollector.sortAsc durations).get i ∈ durations) ∧
      (∀ a b,
        MetricsCollector.percentile (MetricsCollector.sortAsc durations) p = some a →
        MetricsCollector.percentile (MetricsCollector.sortAsc durations) q = some b →
        a ≤ b) := by
  intro l p q hpq hq
  have hp : p ≤ 100 := le_trans hpq hq
  have hperm := List.perm_insertionSort (· ≤ ·) l
  have hlen : (MetricsCollector.sortAsc l).length = l.length := hperm.length_eq
  have hsort : List.Sorted (· ≤ ·) (MetricsCollector.sortAsc l) :=
    List.sorted_insertionSort (· ≤ ·) l
  refine ⟨by rw [MetricsCollector.sortAsc, MetricsCollector.percentile]; rfl, ?_, ?_⟩
  · intro hne
    have hlpos : l.length ≠ 0 := fun h => hne (List.length_eq_zero.mp h)
    have hspos : (MetricsCollector.sortAsc l).length ≠ 0 := by omega
    have hcle : MetricsCollector.ceilPct p (MetricsCollector.sortAsc l).length ≤
        (MetricsCollector.sortAsc l).length :=
      MetricsCollector.ceilPct_le_of_le _ _ hp
    have hbound : MetricsCollector.ceilPct p (MetricsCollector.sortAsc l).length - 1 <
        (MetricsCollector.sortAsc l).length := by omega
    refine ⟨⟨_, hbound⟩, ?_, ?_, ?_⟩
    · have hti := MetricsCollector.ceilPct_toInt p l.length
      rw [← hti]
      have hceq : MetricsCollector.ceilPct p (MetricsCollector.sortAsc l).length =
          MetricsCollector.ceilPct p l.length := by rw [hlen]
      simp only [Fin.val_mk]
      rw [hceq]
      omega
    · rw [MetricsCollector.percentile_eq_get? _ _ hspos]
      exact List.get?_eq_get hbound
    · exact hperm.subset (List.get_mem _ _ _)
  · intro a b ha hb
    by_cases hne : l = []
    · subst hne
      rw [MetricsCollector.sortAsc] at ha hb
      simp [MetricsCollector.percentile] at ha hb
      omega
    · have hlpos : l.length ≠ 0 := fun h => hne (List.length_eq_zero.mp h)
      have hspos : (MetricsCollector.sortAsc l).length ≠ 0 := by omega
      rw [MetricsCollector.percentile_eq_get? _ _ hspos] at ha hb
      have hcleq : MetricsCollector.ceilPct q (MetricsCollector.sortAsc l).length ≤
          (MetricsCollector.sortAsc l).length :=
        MetricsCollector.ceilPct_le_of_le _ _ hq
      have hbq : MetricsCollector.ceilPct q (MetricsCollector.sortAsc l).length - 1 <
          (MetricsCollector.sortAsc l).length := by omega
      have hbp : MetricsCollector.ceilPct p (MetricsCollector.sortAsc l).length - 1 <
          (MetricsCollector.sortAsc l).length := by
        have := MetricsCollector.ceilPct_mono (MetricsCollector.sortAsc l).length hpq
        omega
      rw [List.get?_eq_get hbp] at ha
      rw [List.get?_eq_get hbq] at hb
      obtain rfl := Option.some.inj ha
      obtain rfl := Option.some.inj hb
      refine hsort.rel_get_of_le ?_
      have := MetricsCollector.ceilPct_mono (MetricsCollector.sortAsc l).length hpq
      exact Fin.mk_le_mk.mpr (by omega)

/-- Witness for C4 at the list `[30, 10, 20]` with `p = 50`, `q = 95`. -/
theorem percentile_nearest_rank_witness :
    (50 ≤ 95 ∧ 95 ≤ 100) ∧
    (MetricsCollector.percentile (MetricsCollector.sortAsc []) 50 = some 0 ∧
      (([30, 10, 20] : List Nat) ≠ [] →
        ∃ i : Fin (MetricsCollector.sortAsc [30, 10, 20]).length,
          (i : Nat) =
            (max 0 (⌈((50 : ℚ) / 100) * ((3 : Nat) : ℚ)⌉ - 1)).toNat ∧
          MetricsCollector.percentile (MetricsCollector.sortAsc [30, 10, 20]) 50 =
            some ((MetricsCollector.sortAsc [30, 10, 20]).get i) ∧
          (MetricsCollector.sortAsc [30, 10, 20]).get i ∈ ([30, 10, 20] : List Nat)) ∧
      (∀ a b,
        MetricsCollector.percentile (MetricsCollector.sortAsc [30, 10, 20]) 50 = some a →
        MetricsCollector.percentile (MetricsCollector.sortAsc [30, 10, 20]) 95 = some b →
        a ≤ b)) :=
  ⟨⟨by decide, by decide⟩,
    percentile_nearest_rank [30, 10, 20] 50 95 (by decide) (by decide)⟩

/-- C9 counterexample: on a trace whose child span starts later but ends
earlier than the root, the route reports the spans in start-time order with
the right count, but its duration is `(end of the last-started span) - (first
start)` = 20, not `(latest end among the spans) - (root start)` = 100 as the
claim states. -/
theorem trace_detail_duration_not_latest_end :
    MonitoringRoutes.getTraceDetail exampleTraceRun "t" 500 =
      MonitoringRoutes.TraceDetailResult.ok "t"
        (TracingService.getTrace exampleTraceRun "t") 2 20 ∧
    (TracingService.getTrace exampleTraceRun "t").map Span.startTime = [0, 10] ∧
    (TracingService.getTrace exampleTraceRun "t").map Span.endTime =
      [some 100, some 20] ∧
    (20 : Int) ≠ 100 - 0 := by
  refine ⟨by decide, by decide, by decide, by decide⟩

/-- C9 (amended): for a trace id with at least one recorded span the
trace-detail route returns all of that trace's spans in start-time-ascending
order together with their count, and a duration equal to the end time of the
span with the latest start time (or the current time if that span is still
open or has a zero end time) minus the earliest span's start time; with no
spans it returns 404. -/
theorem trace_detail_contract :
    ∀ (st : TracingService.State) (traceId : String) (now : Nat),
      (TracingService.getTrace st traceId = [] →
        MonitoringRoutes.getTraceDetail st traceId now = .notFound) ∧
      (∀ h : TracingService.getTrace st traceId ≠ [],
        MonitoringRoutes.getTraceDetail st traceId now =
          .ok traceId (TracingService.getTrace st traceId)
            (TracingService.getTrace st traceId).length
            ((MonitoringRoutes.jsOrNat
                ((TracingService.getTrace st traceId).getLast h).endTime now : Int) -
              (((TracingService.getTrace st traceId).head h).startTime : Int))) ∧
      List.Sorted (fun a b : Span => a.startTime ≤ b.startTime)
        (TracingService.getTrace st traceId) ∧
      (∀ sp, (sp ∈ st.activeSpans ∨ sp ∈ st.completedSpans) → sp.traceId = traceId →
        sp ∈ TracingService.getTrace st traceId) := by
  intro st traceId now
  refine ⟨?_, ?_, ?_, ?_⟩
  · intro h
    simp [MonitoringRoutes.getTraceDetail, h]
  · intro h
    have hlen : ¬ (TracingService.getTrace st traceId).length = 0 := by
      simpa [List.length_eq_zero] using h
    simp only [MonitoringRoutes.getTraceDetail]
    rw [dif_neg hlen]
  · rw [TracingService.getTrace]
    exact List.sorted_insertionSort _ _
  · intro sp hsp htid
    rw [TracingService.getTrace]
    refine (List.perm_insertionSort _ _).mem_iff.mpr ?_
    rcases hsp with h | h
    · exact List.mem_append_left _ (List.mem_filter.mpr ⟨h, by simp [htid]⟩)
    · exact List.mem_append_right _ (List.mem_filter.mpr ⟨h, by simp [htid]⟩)

/-- Witness for C9 (amended): the empty state yields 404, and the concrete
run's trace yields the full payload. -/
theorem trace_detail_contract_witness :
    (TracingService.getTrace TracingService.State.init "t" = [] ∧
      MonitoringRoutes.getTraceDetail TracingService.State.init "t" 5 = .notFound) ∧
    (TracingService.getTrace exampleTraceRun "t" ≠ [] ∧
      MonitoringRoutes.getTraceDetail exampleTraceRun "t" 500 =
        .ok "t" (TracingService.getTrace exampleTraceRun "t")
          (TracingService.getTrace exampleTraceRun "t").length
          ((MonitoringRoutes.jsOrNat
              ((TracingService.getTrace exampleTraceRun "t").getLast
                (by decide)).endTime 500 : Int) -
            (((TracingService.getTrace exampleTraceRun "t").head
              (by decide)).startTime : Int))) :=
  ⟨⟨by decide, (trace_detail_contract TracingService.State.init "t" 5).1 (by decide)⟩,
    ⟨by decide, (trace_detail_contract exampleTraceRun "t" 500).2.1 (by decide)⟩⟩

/-! The span-id uniqueness invariant of the tracing state machine. -/

theorem nodup_shuffle (A B C : List String) (id : String)
    (h : ((A ++ id :: B) ++ C).Nodup) (k : Nat) :
    ((A ++ B) ++ (C ++ [id]).drop k).Nodup := by
  have h1 : ((A ++ id :: B) ++ C).Perm (id :: (A ++ (B ++ C))) := by
    rw [List.append_assoc, List.cons_append]
    exact List.perm_middle
  have h2 : (id :: (A ++ (B ++ C))).Nodup := h1.nodup h
  have hfull : ((A ++ B) ++ (C ++ [id])).Nodup := by
    have hp : ((A ++ B) ++ (C ++ [id])).Perm (id :: (A ++ (B ++ C))) := by
      rw [← List.append_assoc (A ++ B) C [id], ← List.append_assoc A B C]
      exact List.perm_append_singleton _ _
    exact hp.symm.nodup h2
  exact List.Nodup.sublist
    (List.Sublist.append_left (List.drop_sublist _ _) _) hfull

theorem TracingService.reachable_ids_nodup {cfg : TracingConfig}
    {st : TracingService.State} (h : TracingService.Reachable cfg st) :
    st.ids.Nodup := by
  induction h with
  | init => simp [TracingService.State.ids, TracingService.State.init]
  | startTrace h traceId spanId draw operationName tags now fresh ih =>
    rename_i st
    by_cases hs : TracingService.shouldSample cfg draw
    · have hfa : ∀ s ∈ st.activeSpans, s.spanId ≠ spanId := by
        intro s hsmem heq
        exact fresh (by
          rw [TracingService.State.ids]
          exact List.mem_append_left _ (heq ▸ List.mem_map_of_mem Span.spanId hsmem))
      simp only [TracingService.startTrace, if_pos hs]
      rw [TracingService.State.ids]
      simp only
      rw [SpanMap.set_of_fresh _ _ hfa, List.map_append]
      have hp : ((st.activeSpans.map Span.spanId ++ [spanId]) ++
          st.completedSpans.map Span.spanId).Perm (spanId :: st.ids) := by
        rw [TracingService.State.ids, List.append_assoc, List.singleton_append]
        exact List.perm_middle
      exact hp.symm.nodup (List.nodup_cons.mpr ⟨fresh, ih⟩)
    · simpa [TracingService.startTrace, hs] using ih
  | startSpan h spanId traceId parentSpanId operationName tags now fresh ih =>
    rename_i st
    by_cases hs : cfg.enabled
    · have hfa : ∀ s ∈ st.activeSpans, s.spanId ≠ spanId := by
        intro s hsmem heq
        exact fresh (by
          rw [TracingService.State.ids]
          exact List.mem_append_left _ (heq ▸ List.mem_map_of_mem Span.spanId hsmem))
      simp only [TracingService.startSpan, if_pos hs]
      rw [TracingService.State.ids]
      simp only
      rw [SpanMap.set_of_fresh _ _ hfa, List.map_append]
      have hp : ((st.activeSpans.map Span.spanId ++ [spanId]) ++
          st.completedSpans.map Span.spanId).Perm (spanId :: st.ids) := by
        rw [TracingService.State.ids, List.append_assoc, List.singleton_append]
        exact List.perm_middle
      exact hp.symm.nodup (List.nodup_cons.mpr ⟨fresh, ih⟩)
    · simpa [TracingService.startSpan, hs] using ih
  | endSpan h spanId status tags now ih =>
    rename_i st
    cases hget : SpanMap.get st.activeSpans spanId with
    | none => simpa [TracingService.endSpan, hget] using ih
    | some sp =>
      obtain ⟨hid, pre, post, hm, hpre, hdel⟩ := SpanMap.get_some_decomp _ _ _ hget
      have hclosed : (TracingService.closeSpan sp status tags now).spanId = spanId := hid
      rw [TracingService.State.ids, hm] at ih
      simp only [List.map_append, List.map_cons, hid] at ih
      simp only [TracingService.endSpan, hget]
      split_ifs with hover
      · rw [TracingService.State.ids]
        simp only [hdel, List.map_drop, List.map_append, List.map_cons, List.map_nil,
          hclosed]
        exact nodup_shuffle _ _ _ _ ih _
      · rw [TracingService.State.ids]
        simp only [hdel, List.map_append, List.map_cons, List.map_nil, hclosed]
        have := nodup_shuffle (pre.map Span.spanId) (post.map Span.spanId)
          (st.completedSpans.map Span.spanId) spanId ih 0
        simpa using this
  | addSpanLog h spanId message data now ih =>
    rename_i st
    simp only [TracingService.addSpanLog, TracingService.State.ids]
    rw [SpanMap.update_map_spanId st.activeSpans spanId
      (fun sp => { sp with
        logs := sp.logs ++ [{ timestamp := now, message := message, data := data }] })
      (fun sp => rfl)]
    exact ih
  | addSpanTags h spanId tags ih =>
    rename_i st
    simp only [TracingService.addSpanTags, TracingService.State.ids]
    rw [SpanMap.update_map_spanId st.activeSpans spanId
      (fun sp => { sp with tags := assignTags sp.tags tags })
      (fun sp => rfl)]
    exact ih

/-- C6: in every reachable tracer state a span id lives in at most one of the
active set and the completed store; `endSpan` on an active id removes it from
the active set and appends its closed form to the completed store in the same
step; and every operation leaves the completed store a drop-suffix of the old
store plus at most one appended span — completed spans are removed only by
eviction (from the oldest end) and never mutated. Freshness of the randomly
generated ids is a premise of `Reachable`. -/
theorem span_id_in_at_most_one_store :
    ∀ (cfg : TracingConfig) (st : TracingService.State),
      TracingService.Reachable cfg st →
      (∀ sp ∈ st.activeSpans, ∀ sp' ∈ st.completedSpans, sp.spanId ≠ sp'.spanId) ∧
      (∀ (spanId : String) (status : SpanStatus) (tags : Option Tags) (now : Nat)
          (sp : Span),
        SpanMap.get st.activeSpans spanId = some sp →
        SpanMap.get (TracingService.endSpan st spanId status tags now).activeSpans
            spanId = none ∧
        ∃ k, (TracingService.endSpan st spanId status tags now).completedSpans =
          (st.completedSpans ++ [TracingService.closeSpan sp status tags now]).drop k) ∧
      (∀ (spanId : String) (status : SpanStatus) (tags : Option Tags) (now : Nat),
        ∃ k appended, appended.length ≤ 1 ∧
          (TracingService.endSpan st spanId status tags now).completedSpans =
            (st.completedSpans ++ appended).drop k) ∧
      (∀ (traceId spanId : String) (draw : ℚ) (operationName : String)
          (tags : Option Tags) (now : Nat),
        (TracingService.startTrace cfg st traceId spanId draw operationName tags
          now).1.completedSpans = st.completedSpans) ∧
      (∀ (spanId traceId parentSpanId operationName : String) (tags : Option Tags)
          (now : Nat),
        (TracingService.startSpan cfg st spanId traceId parentSpanId operationName
          tags now).1.completedSpans = st.completedSpans) ∧
      (∀ (spanId message : String) (data : Option String) (now : Nat),
        (TracingService.addSpanLog st spanId message data now).completedSpans =
          st.completedSpans) ∧
      (∀ (spanId : String) (tags : Tags),
        (TracingService.addSpanTags st spanId tags).completedSpans =
          st.completedSpans) := by
  intro cfg st hreach
  have hnodup := TracingService.reachable_ids_nodup hreach
  refine ⟨?_, ?_, ?_, ?_, ?_, ?_, ?_⟩
  · rw [TracingService.State.ids, List.nodup_append] at hnodup
    obtain ⟨-, -, hdisj⟩ := hnodup
    intro sp hsp sp' hsp' heq
    exact hdisj (List.mem_map_of_mem Span.spanId hsp)
      (by rw [heq]; exact List.mem_map_of_mem Span.spanId hsp')
  · intro spanId status tags now sp hget
    obtain ⟨hid, pre, post, hm, hpre, hdel⟩ := SpanMap.get_some_decomp _ _ _ hget
    constructor
    · rw [TracingService.State.ids, hm] at hnodup
      simp only [List.map_append, List.map_cons, hid] at hnodup
      have hleft : ((pre.map Span.spanId) ++ spanId :: (post.map Span.spanId)).Nodup :=
        (List.nodup_append.mp hnodup).1
      have hpost : spanId ∉ post.map Span.spanId := by
        have := (List.nodup_append.mp hleft).2.1
        exact (List.nodup_cons.mp this).1
      simp only [TracingService.endSpan, hget]
      rw [hdel]
      refine (SpanMap.get_eq_none_iff _ _).mpr ?_
      intro s hs heq
      rcases List.mem_append.mp hs with h1 | h2
      · exact hpre s h1 heq
      · exact hpost (heq ▸ List.mem_map_of_mem Span.spanId h2)
    · simp only [TracingService.endSpan, hget]
      split_ifs with hover
      · exact ⟨_, rfl⟩
      · exact ⟨0, (List.drop_zero _).symm⟩
  · intro spanId status tags now
    cases hget : SpanMap.get st.activeSpans spanId with
    | none =>
      refine ⟨0, [], by simp, ?_⟩
      simp [TracingService.endSpan, hget]
    | some sp =>
      simp only [TracingService.endSpan, hget]
      split_ifs with hover
      · exact ⟨_, [TracingService.closeSpan sp status tags now], by simp, rfl⟩
      · exact ⟨0, [TracingService.closeSpan sp status tags now], by simp,
          (List.drop_zero _).symm⟩
  · intro traceId spanId draw operationName tags now
    simp only [TracingService.startTrace]
    split_ifs <;> rfl
  · intro spanId traceId parentSpanId operationName tags now
    simp only [TracingService.startSpan]
    split_ifs <;> rfl
  · intro spanId message data now
    rfl
  · intro spanId tags
    rfl

/-- Witness for C6: a reachable one-span state (a sampled root trace), at
which the active and completed stores share no id. -/
theorem span_id_in_at_most_one_store_witness :
    TracingService.Reachable ⟨true, 1, "payd"⟩
      (TracingService.startTrace ⟨true, 1, "payd"⟩ TracingService.State.init
        "t1" "s1" 0 "op" none 0).1 ∧
    (∀ sp ∈ (TracingService.startTrace ⟨true, 1, "payd"⟩ TracingService.State.init
        "t1" "s1" 0 "op" none 0).1.activeSpans,
      ∀ sp' ∈ (TracingService.startTrace ⟨true, 1, "payd"⟩ TracingService.State.init
        "t1" "s1" 0 "op" none 0).1.completedSpans,
      sp.spanId ≠ sp'.spanId) :=
  have hreach : TracingService.Reachable ⟨true, 1, "payd"⟩
      (TracingService.startTrace ⟨true, 1, "payd"⟩ TracingService.State.init
        "t1" "s1" 0 "op" none 0).1 :=
    TracingService.Reachable.startTrace TracingService.Reachable.init
      "t1" "s1" 0 "op" none 0 (by decide)
  ⟨hreach, (span_id_in_at_most_one_store ⟨true, 1, "payd"⟩ _ hreach).1⟩

end PayD

